import Mathlib

/-!
Verification of `plot_spm_folder.py`, a batch converter that turns AFM
(`.gwy`) scan files into annotated PNG images.

The script is embedded shallowly:

* numpy sample arrays become flat lists of rationals (every operation the
  script performs on an array — scalar multiplication, global minimum and
  maximum, elementwise subtraction — is elementwise or global, so the 2D
  grid is flattened to the list of its samples; float arithmetic is
  modelled as exact rational arithmetic);
* the `params` dictionary becomes a lookup function on channel names;
* filesystem and matplotlib effects become an explicit `RunTrace` record
  (printed lines, created directories, saved images, open figure numbers)
  threaded through the loops of `process_gwy_files`;
* a possible exception inside the rendering and saving step (which the
  script does not guard) is modelled by a `render` oracle returning
  `Option String`; the `gwy.load` parse step of each file is modelled by
  an `Except` field of the file, mirroring the `try/except` in the code.
-/

/-- The minimum of a sample array, as computed by `numpy.ndarray.min`
(undefined on an empty array; theorems about it assume nonemptiness). -/
def npMin : List ℚ → ℚ
  | [] => 0
  | x :: xs => xs.foldl min x

/-- The maximum of a sample array, as computed by `numpy.ndarray.max`. -/
def npMax : List ℚ → ℚ
  | [] => 0
  | x :: xs => xs.foldl max x

/-- One value of the `params` dictionary: colormap name, numeric data
scale, and colorbar label for a recognized channel. -/
structure ChannelParams where
  cmap : String
  datascale : ℚ
  label : String
deriving DecidableEq, Repr

/-- The `params` dictionary of the script, as a lookup function.  The float
literals `1e9` and `1e3` are the exact integers 1000000000 and 1000. -/
def params (key : String) : Option ChannelParams :=
  if key = "ZSensor" then some ⟨"afmhot", 1000000000, "Height [nm]"⟩
  else if key = "Peak Force Error" then some ⟨"gray", 1000, "Peak Force [mV]"⟩
  else if key = "Potential" then some ⟨"inferno", 1, "Potential [V]"⟩
  else none

/-- The keys of the `params` dictionary, in order of appearance. -/
def recognizedKeys : List String := ["ZSensor", "Peak Force Error", "Potential"]

/-- Scaling applied to one recognized channel: `data = channel.data *
params[key]["datascale"]`, followed for the `ZSensor` key only by
`data -= data.min()`. -/
def scaleForKey (p : ChannelParams) (key : String) (raw : List ℚ) : List ℚ :=
  let data := raw.map (fun v => v * p.datascale)
  if key = "ZSensor" then data.map (fun v => v - npMin data) else data

/-- The per-channel data processing of the loop body: `none` when the key
is absent from `params` (the loop skips it), otherwise the scaled and, for
the height channel, baseline-shifted samples. -/
def processData (key : String) (raw : List ℚ) : Option (List ℚ) :=
  (params key).map (fun p => scaleForKey p key raw)

/-- Index of the last "." in a character list, used by `os.path.splitext`. -/
def rfindDot : List Char → Option Nat
  | [] => none
  | c :: cs =>
    match rfindDot cs with
    | some i => some (i + 1)
    | none => if c = '.' then some 0 else none

/-- Base part of `os.path.splitext` on a bare file name (directory
separators never occur in `os.listdir` entries): split at the last dot,
except that a name whose characters before that dot are all dots (a hidden
file such as ".gwy") keeps the whole name as its base. -/
def splitextBaseL (l : List Char) : List Char :=
  match rfindDot l with
  | none => l
  | some i => if (l.take i).all (fun c => c = '.') then l else l.take i

/-- String wrapper for the `os.path.splitext` base. -/
def splitextBase (s : String) : String := ⟨splitextBaseL s.data⟩

/-- Python `str.endswith`. -/
def endswith (s suf : String) : Bool := List.isSuffixOf suf.data s.data

/-- Name of the output subdirectory created by the script. -/
def output_folder : String := "processed_images"

/-- The output path of one image:
`os.path.join(output_folder, f"{os.path.splitext(file)[0]}.{key}.png")`,
with the working-directory component of the join abstracted away. -/
def outputPath (file key : String) : String :=
  output_folder ++ "/" ++ splitextBase file ++ "." ++ key ++ ".png"

/-- A numeric value together with the Python format specification used to
render it as text (f-string `{x:.3g}` is `Formatted.mk x ".3g"`). -/
structure Formatted where
  value : ℚ
  fmt : String
deriving DecidableEq, Repr

/-- The colorbar assembled by `add_cbar`: layout keywords, hidden axis,
the minimum and maximum texts, and the label rotated by -90 degrees. -/
structure CbarSpec where
  shrink : ℚ
  aspect : ℚ
  pad : ℚ
  axisOff : Bool
  minText : Formatted
  maxText : Formatted
  label : String
  labelRotation : ℤ
deriving DecidableEq, Repr

/-- Translation of `add_cbar`: the min and max of the displayed data are
rendered with the ".3g" format (three significant figures). -/
def add_cbar (data : List ℚ) (label : String) : CbarSpec :=
  { shrink := 1/2, aspect := 12, pad := 3/100, axisOff := true,
    minText := ⟨npMin data, ".3g"⟩, maxText := ⟨npMax data, ".3g"⟩,
    label := label, labelRotation := -90 }

/-- The scale bar assembled by `add_scalebar`, field per keyword. -/
structure ScalebarSpec where
  dx : ℚ
  units : String
  length_fraction : ℚ
  location : String
  scale_loc : String
  frameon : Bool
  border_pad : ℚ
  width_fraction : ℚ
  color : String
deriving DecidableEq, Repr

/-- Translation of `add_scalebar`. -/
def add_scalebar : ScalebarSpec :=
  { dx := 1, units := "m", length_fraction := 3/10, location := "lower left",
    scale_loc := "top", frameon := false, border_pad := 3/2,
    width_fraction := 12/1000, color := "white" }

/-- One channel extracted from a scan file: its samples and the physical
extents `xreal` and `yreal`. -/
structure Channel where
  data : List ℚ
  xreal : ℚ
  yreal : ℚ
deriving DecidableEq, Repr

/-- The figure assembled for one recognized channel: `imshow` of the
scaled data with extent `(0, xreal, 0, yreal)` and the configured
colormap, axes turned off, the colorbar from `add_cbar` and the scale bar
from `add_scalebar`. -/
structure Figure where
  imageData : List ℚ
  xmin : ℚ
  xmax : ℚ
  ymin : ℚ
  ymax : ℚ
  cmap : String
  interpolation : String
  origin : String
  axisOff : Bool
  cbar : CbarSpec
  scalebar : ScalebarSpec
deriving DecidableEq, Repr

/-- Builds the figure for one recognized channel of one file. -/
def mkFigure (p : ChannelParams) (key : String) (ch : Channel) : Figure :=
  let data := scaleForKey p key ch.data
  { imageData := data, xmin := 0, xmax := ch.xreal, ymin := 0, ymax := ch.yreal,
    cmap := p.cmap, interpolation := "none", origin := "upper", axisOff := true,
    cbar := add_cbar data p.label, scalebar := add_scalebar }

/-- One `fig.savefig(output_path, dpi=300, bbox_inches="tight")` call:
the path written, the keywords, the figure number and the figure. -/
structure SavedImage where
  path : String
  dpi : ℕ
  bboxInches : String
  figId : ℕ
  figure : Figure
deriving DecidableEq, Repr

/-- The image saved for one recognized channel of one file. -/
def mkImg (figId : ℕ) (fname key : String) (ch : Channel) (p : ChannelParams) : SavedImage :=
  { path := outputPath fname key, dpi := 300, bboxInches := "tight",
    figId := figId, figure := mkFigure p key ch }

/-- One scan file as the script sees it: its name, and the outcome of
`gwy.util.get_datafields(gwy.load(file))` — the channel dictionary as an
association list, or the message of the exception the parse raises. -/
structure GwyFile where
  name : String
  parse : Except String (List (String × Channel))

/-- Observable effects of a run: lines printed, directories created,
images saved (in order), figure numbers currently open in the pyplot
registry, the next fresh figure number, and the exception escaping the
run, if any. -/
structure RunTrace where
  printed : List String
  createdDirs : List String
  saved : List SavedImage
  openFigs : List ℕ
  nextFig : ℕ
  uncaught : Option String
deriving DecidableEq, Repr

/-- The state at process start. -/
def initTrace : RunTrace :=
  { printed := [], createdDirs := [], saved := [], openFigs := [], nextFig := 0,
    uncaught := none }

/-- Render oracle under which figure creation and `savefig` always
succeed. -/
def renderOk : SavedImage → Option String := fun _ => none

/-- Diagnostic printed by the `except` branch of the file loop. -/
def loadErrorLine (fname e : String) : String :=
  "Error loading " ++ fname ++ ": " ++ e

/-- The channel loop of `process_gwy_files` for one parsed file.  A key
absent from `params` is skipped.  For a recognized key a fresh figure is
opened (and never closed), the figure is assembled, and `render` decides
whether saving succeeds; an exception from rendering is not caught, so it
ends the loop with `uncaught` set. -/
def processChannelsAux (render : SavedImage → Option String) (fname : String) :
    List (String × Channel) → RunTrace → RunTrace
  | [], st => st
  | (key, ch) :: rest, st =>
    match params key with
    | none => processChannelsAux render fname rest st
    | some p =>
      let img := mkImg st.nextFig fname key ch p
      let st1 : RunTrace :=
        { st with openFigs := st.openFigs ++ [st.nextFig], nextFig := st.nextFig + 1 }
      match render img with
      | some e => { st1 with uncaught := some e }
      | none => processChannelsAux render fname rest { st1 with saved := st1.saved ++ [img] }

/-- One iteration of the file loop: the `try/except` around `gwy.load`
prints a diagnostic and continues on a parse failure; on success the
channel loop runs. -/
def processFile (render : SavedImage → Option String) (file : GwyFile)
    (st : RunTrace) : RunTrace :=
  match file.parse with
  | .error e => { st with printed := st.printed ++ [loadErrorLine file.name e] }
  | .ok channels => processChannelsAux render file.name channels st

/-- The file loop.  An exception that escaped one file body (only
rendering can raise one here) stops the whole loop. -/
def runFiles (render : SavedImage → Option String) :
    List GwyFile → RunTrace → RunTrace
  | [], st => st
  | f :: fs, st =>
    let st1 := processFile render f st
    match st1.uncaught with
    | some _ => st1
    | none => runFiles render fs st1

/-- The entry point `process_gwy_files`: filter the working-directory
listing for names ending in ".gwy", return early with one message when
none remain, otherwise create the output folder and run the file loop. -/
def process_gwy_files (dir : List GwyFile)
    (render : SavedImage → Option String) : RunTrace :=
  let files := dir.filter (fun f => endswith f.name ".gwy")
  if files.isEmpty then
    { initTrace with printed := ["No .gwy files found in the folder."] }
  else
    runFiles render files { initTrace with createdDirs := [output_folder] }

/-- The channels of a file as the loop sees them: the parsed dictionary,
or nothing when parsing failed. -/
def channelsOf (f : GwyFile) : List (String × Channel) :=
  match f.parse with
  | .ok chs => chs
  | .error _ => []

/-- Sample channel used in the concrete witnesses. -/
def exChannel : Channel := { data := [2, 5], xreal := 1, yreal := 1 }

/-- A scan file that parses into one height channel. -/
def goodFile : GwyFile :=
  { name := "good.gwy", parse := .ok [("ZSensor", exChannel)] }

/-- A scan file whose parse raises with message "boom". -/
def badFile : GwyFile := { name := "bad.gwy", parse := .error "boom" }

/-- A scan file with one unrecognized and one recognized channel. -/
def mixedFile : GwyFile :=
  { name := "mixed.gwy", parse := .ok [("Phase", exChannel), ("Potential", exChannel)] }

/-- A directory listing used in concrete witnesses: a file that fails to
parse, a file with a height channel, a file with an unrecognized and a
recognized channel, and a non-scan file that is never discovered. -/
def exDir : List GwyFile :=
  [badFile, goodFile, mixedFile, { name := "notes.txt", parse := .error "not a gwy file" }]

/-- Render oracle that raises "disk full" at every save, used to witness
the unhandled-rendering-failure claim. -/
def renderDiskFull : SavedImage → Option String := fun _ => some "disk full"

lemma foldl_min_sub (xs : List ℚ) (a m : ℚ) :
    (xs.map (fun y => y - m)).foldl min (a - m) = xs.foldl min a - m := by
  induction xs generalizing a with
  | nil => rfl
  | cons x xs ih =>
    simp only [List.map_cons, List.foldl_cons]
    rw [min_sub_sub_right, ih]

lemma foldl_max_sub (xs : List ℚ) (a m : ℚ) :
    (xs.map (fun y => y - m)).foldl max (a - m) = xs.foldl max a - m := by
  induction xs generalizing a with
  | nil => rfl
  | cons x xs ih =>
    simp only [List.map_cons, List.foldl_cons]
    rw [max_sub_sub_right, ih]

lemma npMin_map_sub (d : List ℚ) (m : ℚ) (h : d ≠ []) :
    npMin (d.map (fun y => y - m)) = npMin d - m := by
  cases d with
  | nil => exact absurd rfl h
  | cons x xs =>
    simp only [List.map_cons, npMin]
    exact foldl_min_sub xs x m

lemma npMax_map_sub (d : List ℚ) (m : ℚ) (h : d ≠ []) :
    npMax (d.map (fun y => y - m)) = npMax d - m := by
  cases d with
  | nil => exact absurd rfl h
  | cons x xs =>
    simp only [List.map_cons, npMax]
    exact foldl_max_sub xs x m

lemma min_mul_right_nonneg (a b s : ℚ) (hs : 0 ≤ s) :
    min (a * s) (b * s) = min a b * s := by
  rcases le_total a b with h | h
  · rw [min_eq_left (mul_le_mul_of_nonneg_right h hs), min_eq_left h]
  · rw [min_eq_right (mul_le_mul_of_nonneg_right h hs), min_eq_right h]

lemma max_mul_right_nonneg (a b s : ℚ) (hs : 0 ≤ s) :
    max (a * s) (b * s) = max a b * s := by
  rcases le_total a b with h | h
  · rw [max_eq_right (mul_le_mul_of_nonneg_right h hs), max_eq_right h]
  · rw [max_eq_left (mul_le_mul_of_nonneg_right h hs), max_eq_left h]

lemma foldl_min_mul (xs : List ℚ) (a s : ℚ) (hs : 0 ≤ s) :
    (xs.map (fun y => y * s)).foldl min (a * s) = xs.foldl min a * s := by
  induction xs generalizing a with
  | nil => rfl
  | cons x xs ih =>
    simp only [List.map_cons, List.foldl_cons]
    rw [min_mul_right_nonneg a x s hs, ih]

lemma foldl_max_mul (xs : List ℚ) (a s : ℚ) (hs : 0 ≤ s) :
    (xs.map (fun y => y * s)).foldl max (a * s) = xs.foldl max a * s := by
  induction xs generalizing a with
  | nil => rfl
  | cons x xs ih =>
    simp only [List.map_cons, List.foldl_cons]
    rw [max_mul_right_nonneg a x s hs, ih]

lemma npMin_map_mul (d : List ℚ) (s : ℚ) (hs : 0 ≤ s) (h : d ≠ []) :
    npMin (d.map (fun y => y * s)) = npMin d * s := by
  cases d with
  | nil => exact absurd rfl h
  | cons x xs =>
    simp only [List.map_cons, npMin]
    exact foldl_min_mul xs x s hs

lemma npMax_map_mul (d : List ℚ) (s : ℚ) (hs : 0 ≤ s) (h : d ≠ []) :
    npMax (d.map (fun y => y * s)) = npMax d * s := by
  cases d with
  | nil => exact absurd rfl h
  | cons x xs =>
    simp only [List.map_cons, npMax]
    exact foldl_max_mul xs x s hs

lemma map_ne_nil {α β : Type} (f : α → β) {d : List α} (h : d ≠ []) :
    d.map f ≠ [] := by
  cases d with
  | nil => exact absurd rfl h
  | cons x xs => simp

lemma datascale_nonneg (k : String) (p : ChannelParams) (hk : params k = some p) :
    0 ≤ p.datascale := by
  unfold params at hk
  split_ifs at hk <;> cases hk <;> norm_num

/-- C1: the height channel is scaled and then baseline-shifted, so its
processed minimum is 0 and its range is the input range times the scale
factor; no other recognized channel gets the subtraction. -/
theorem spec_C1 (d : List ℚ) (h : d ≠ []) :
    processData "ZSensor" d =
      some ((d.map (fun v => v * 1000000000)).map
        (fun v => v - npMin (d.map (fun v => v * 1000000000)))) ∧
    (∀ out, processData "ZSensor" d = some out →
      npMin out = 0 ∧
      npMax out - npMin out = 1000000000 * (npMax d - npMin d)) ∧
    (∀ k p, params k = some p → k ≠ "ZSensor" →
      processData k d = some (d.map (fun v => v * p.datascale))) := by
  have hscale : (0 : ℚ) ≤ 1000000000 := by norm_num
  have hfirst : processData "ZSensor" d =
      some ((d.map (fun v => v * 1000000000)).map
        (fun v => v - npMin (d.map (fun v => v * 1000000000)))) := by
    simp [processData, params, scaleForKey]
  refine ⟨hfirst, ?_, ?_⟩
  · intro out hout
    rw [hfirst] at hout
    obtain rfl := (Option.some.inj hout).symm
    have hne : d.map (fun v => v * 1000000000) ≠ [] := map_ne_nil _ h
    constructor
    · rw [npMin_map_sub _ _ hne, sub_self]
    · rw [npMin_map_sub _ _ hne, npMax_map_sub _ _ hne, sub_self,
        npMin_map_mul d _ hscale h, npMax_map_mul d _ hscale h]
      ring
  · intro k p hk hne
    simp [processData, hk, scaleForKey, hne]

/-- Witness for `spec_C1` at the concrete input `[2, 5]`. -/
theorem spec_C1_witness :
    processData "ZSensor" [2, 5] =
      some ((([2, 5] : List ℚ).map (fun v => v * 1000000000)).map
        (fun v => v - npMin (([2, 5] : List ℚ).map (fun v => v * 1000000000)))) :=
  (spec_C1 [2, 5] (by decide)).1

/-- C2: every recognized non-height channel is scaled elementwise with no
shift, and its range scales exactly by the configured factor. -/
theorem spec_C2 (d : List ℚ) (k : String) (p : ChannelParams)
    (hk : params k = some p) (hne : k ≠ "ZSensor") :
    processData k d = some (d.map (fun v => v * p.datascale)) ∧
    (d ≠ [] →
      npMax (d.map (fun v => v * p.datascale)) -
          npMin (d.map (fun v => v * p.datascale))
        = p.datascale * (npMax d - npMin d)) := by
  constructor
  · simp [processData, hk, scaleForKey, hne]
  · intro h
    have hs := datascale_nonneg k p hk
    rw [npMin_map_mul d _ hs h, npMax_map_mul d _ hs h]
    ring

/-- Witness for `spec_C2` at the Potential channel and input `[2, 5]`. -/
theorem spec_C2_witness :
    processData "Potential" [2, 5] =
      some (([2, 5] : List ℚ).map
        (fun v => v * (ChannelParams.mk "inferno" 1 "Potential [V]").datascale)) :=
  (spec_C2 [2, 5] "Potential" ⟨"inferno", 1, "Potential [V]"⟩ (by decide) (by decide)).1

/-- C10: the configuration table holds exactly the three channel entries,
and only the ZSensor key receives the baseline subtraction. -/
theorem spec_C10 :
    params "ZSensor" = some ⟨"afmhot", 1000000000, "Height [nm]"⟩ ∧
    params "Peak Force Error" = some ⟨"gray", 1000, "Peak Force [mV]"⟩ ∧
    params "Potential" = some ⟨"inferno", 1, "Potential [V]"⟩ ∧
    (∀ k, (params k).isSome = true ↔ k ∈ recognizedKeys) ∧
    (∀ k d, k ≠ "ZSensor" →
      processData k d = (params k).map (fun p => d.map (fun v => v * p.datascale))) := by
  refine ⟨by decide, by decide, by decide, ?_, ?_⟩
  · intro k
    simp only [params, recognizedKeys]
    by_cases h1 : k = "ZSensor"
    · simp [h1]
    · by_cases h2 : k = "Peak Force Error"
      · simp [h1, h2]
      · by_cases h3 : k = "Potential"
        · simp [h1, h2, h3]
        · simp [h1, h2, h3]
  · intro k d hne
    unfold processData
    cases hp : params k with
    | none => rfl
    | some p => simp [scaleForKey, hne]

/-- Witness for `spec_C10` at the Potential channel and input `[2]`. -/
theorem spec_C10_witness :
    processData "Potential" [2] =
      (params "Potential").map (fun p => ([2] : List ℚ).map (fun v => v * p.datascale)) :=
  spec_C10.2.2.2.2 "Potential" [2] (by decide)

/-- C6: a directory listing with no name ending in ".gwy" makes the run
print exactly one informational message and return normally, with no
directory created, no image saved and no figure opened (exit code 0 is
the normal return of the script body). -/
theorem spec_C6 (dir : List GwyFile) (render : SavedImage → Option String)
    (h : (dir.filter (fun f => endswith f.name ".gwy")).isEmpty = true) :
    process_gwy_files dir render =
      { printed := ["No .gwy files found in the folder."], createdDirs := [],
        saved := [], openFigs := [], nextFig := 0, uncaught := none } := by
  simp [process_gwy_files, h, initTrace]

/-- Witness for `spec_C6`: a listing with a single non-scan file. -/
theorem spec_C6_witness :
    process_gwy_files [{ name := "notes.txt", parse := Except.error "x" }] renderOk =
      { printed := ["No .gwy files found in the folder."], createdDirs := [],
        saved := [], openFigs := [], nextFig := 0, uncaught := none } :=
  spec_C6 [{ name := "notes.txt", parse := Except.error "x" }] renderOk (by decide)

/-- C3: a file whose parse raises adds exactly one diagnostic line made of
the file name and the cause, saves nothing for that file, raises nothing,
and the file loop continues with the remaining files from that state. -/
theorem spec_C3 (render : SavedImage → Option String) (f : GwyFile) (e : String)
    (rest : List GwyFile) (st : RunTrace)
    (hp : f.parse = Except.error e) (hu : st.uncaught = none) :
    processFile render f st =
      { st with printed := st.printed ++ [loadErrorLine f.name e] } ∧
    runFiles render (f :: rest) st =
      runFiles render rest
        { st with printed := st.printed ++ [loadErrorLine f.name e] } := by
  have h1 : processFile render f st =
      { st with printed := st.printed ++ [loadErrorLine f.name e] } := by
    simp [processFile, hp]
  refine ⟨h1, ?_⟩
  simp only [runFiles, h1]
  simp [hu]

/-- Witness for `spec_C3`: the bad file is logged and the loop goes on to
the good file. -/
theorem spec_C3_witness :
    runFiles renderOk [badFile, goodFile] initTrace =
      runFiles renderOk [goodFile]
        { initTrace with
            printed := initTrace.printed ++ [loadErrorLine badFile.name "boom"] } :=
  (spec_C3 renderOk badFile "boom" [goodFile] initTrace rfl rfl).2

lemma string_eq_of_data_eq {a b : String} (h : a.data = b.data) : a = b :=
  String.ext h

lemma str_data_append (a b : String) : (a ++ b).data = a.data ++ b.data := by
  cases a; cases b; rfl

lemma outputPath_data (f k : String) :
    (outputPath f k).data =
      output_folder.data ++ ("/".data ++ ((splitextBase f).data ++
        (".".data ++ (k.data ++ ".png".data)))) := by
  simp [outputPath, str_data_append, List.append_assoc]

lemma append_suffix_or (b1 b2 s1 s2 : List Char) (h : b1 ++ s1 = b2 ++ s2) :
    s1 <:+ s2 ∨ s2 <:+ s1 := by
  have h1 : s1 <:+ b2 ++ s2 := h ▸ List.suffix_append b1 s1
  exact List.suffix_or_suffix_of_suffix h1 (List.suffix_append b2 s2)

/-- C5 (amended): the output path is the stated pure function of the
extension-stripped base name and the channel name, and two distinct
(discovered file, recognized channel) pairs get distinct paths provided
`os.path.splitext` strips exactly the ".gwy" extension of each file name
(true for every discovered name except hidden-file-style names such as
".gwy", for which `splitext` strips nothing — see the counterexample). -/
theorem spec_C5 (f1 f2 k1 k2 : String)
    (hk1 : k1 ∈ recognizedKeys) (hk2 : k2 ∈ recognizedKeys)
    (hb1 : splitextBase f1 ++ ".gwy" = f1) (hb2 : splitextBase f2 ++ ".gwy" = f2)
    (heq : outputPath f1 k1 = outputPath f2 k2) :
    f1 = f2 ∧ k1 = k2 := by
  have hd := congrArg String.data heq
  rw [outputPath_data, outputPath_data] at hd
  have hd1 := List.append_cancel_left hd
  have hd2 := List.append_cancel_left hd1
  simp only [recognizedKeys, List.mem_cons, List.mem_singleton,
    List.not_mem_nil, or_false] at hk1 hk2
  rcases hk1 with rfl | rfl | rfl <;> rcases hk2 with rfl | rfl | rfl <;>
    first
    | (rcases append_suffix_or _ _ _ _ hd2 with hs | hs <;> exact absurd hs (by decide))
    | (refine ⟨?_, rfl⟩
       have hbb : splitextBase f1 = splitextBase f2 :=
         string_eq_of_data_eq (List.append_cancel_right hd2)
       rw [← hb1, ← hb2, hbb])

/-- Witness for `spec_C5` at two well-formed names. -/
theorem spec_C5_witness :
    ("a.gwy" : String) = "a.gwy" ∧ ("ZSensor" : String) = "ZSensor" :=
  spec_C5 "a.gwy" "a.gwy" "ZSensor" "ZSensor" (by decide) (by decide)
    (by decide) (by decide) rfl

/-- C5 counterexample: the distinct discovered names ".gwy" and
".gwy.gwy" collide on the recognized ZSensor channel — `os.path.splitext`
leaves a leading-dot-only name whole, so both produce
"processed_images/.gwy.ZSensor.png". -/
theorem spec_C5_counterexample :
    (".gwy" : String) ≠ ".gwy.gwy" ∧
    endswith ".gwy" ".gwy" = true ∧ endswith ".gwy.gwy" ".gwy" = true ∧
    "ZSensor" ∈ recognizedKeys ∧
    outputPath ".gwy" "ZSensor" = outputPath ".gwy.gwy" "ZSensor" := by
  decide

/-- Projection of a saved image to its output path and figure (the global
figure number is dropped; it is handled separately in the figure-lifecycle
lemmas). -/
def imgKey (img : SavedImage) : String × Figure := (img.path, img.figure)

/-- The (path, figure) pairs one file should contribute: one per channel
of the parsed file whose key is in `params`, in channel order. -/
def expectedPairs (f : GwyFile) : List (String × Figure) :=
  (channelsOf f).filterMap (fun kc =>
    (params kc.1).map (fun p => (outputPath f.name kc.1, mkFigure p kc.1 kc.2)))

/-- The diagnostic line one file should contribute, if its parse fails. -/
def expectedDiag (f : GwyFile) : Option String :=
  match f.parse with
  | .error e => some (loadErrorLine f.name e)
  | .ok _ => none

lemma procCh_printed (render : SavedImage → Option String) (fname : String)
    (chs : List (String × Channel)) :
    ∀ st, (processChannelsAux render fname chs st).printed = st.printed := by
  induction chs with
  | nil => intro st; rfl
  | cons kc rest ih =>
    intro st
    obtain ⟨key, ch⟩ := kc
    cases hpk : params key with
    | none => simp only [processChannelsAux, hpk]; exact ih st
    | some p =>
      simp only [processChannelsAux, hpk]
      cases hr : render (mkImg st.nextFig fname key ch p) with
      | some e => simp [hr]
      | none => simp only [hr]; exact ih _

lemma procCh_createdDirs (render : SavedImage → Option String) (fname : String)
    (chs : List (String × Channel)) :
    ∀ st, (processChannelsAux render fname chs st).createdDirs = st.createdDirs := by
  induction chs with
  | nil => intro st; rfl
  | cons kc rest ih =>
    intro st
    obtain ⟨key, ch⟩ := kc
    cases hpk : params key with
    | none => simp only [processChannelsAux, hpk]; exact ih st
    | some p =>
      simp only [processChannelsAux, hpk]
      cases hr : render (mkImg st.nextFig fname key ch p) with
      | some e => simp [hr]
      | none => simp only [hr]; exact ih _

lemma procCh_renderOk_uncaught (fname : String) (chs : List (String × Channel)) :
    ∀ st, (processChannelsAux renderOk fname chs st).uncaught = st.uncaught := by
  induction chs with
  | nil => intro st; rfl
  | cons kc rest ih =>
    intro st
    obtain ⟨key, ch⟩ := kc
    simp only [processChannelsAux, renderOk]
    cases hpk : params key with
    | none => exact ih st
    | some p => exact ih _

lemma procCh_renderOk_saved (fname : String) (chs : List (String × Channel)) :
    ∀ st, ((processChannelsAux renderOk fname chs st).saved).map imgKey =
      st.saved.map imgKey ++ chs.filterMap (fun kc =>
        (params kc.1).map (fun p => (outputPath fname kc.1, mkFigure p kc.1 kc.2))) := by
  induction chs with
  | nil => intro st; simp [processChannelsAux]
  | cons kc rest ih =>
    intro st
    obtain ⟨key, ch⟩ := kc
    simp only [processChannelsAux, renderOk]
    cases hpk : params key with
    | none => simp [List.filterMap_cons, hpk, ih st]
    | some p =>
      rw [ih _]
      simp [List.filterMap_cons, hpk, mkImg, imgKey, List.append_assoc]

lemma procFile_renderOk_uncaught (f : GwyFile) (st : RunTrace) :
    (processFile renderOk f st).uncaught = st.uncaught := by
  cases hp : f.parse with
  | error e => simp [processFile, hp]
  | ok chs => simp [processFile, hp, procCh_renderOk_uncaught]

lemma procFile_renderOk_saved (f : GwyFile) (st : RunTrace) :
    ((processFile renderOk f st).saved).map imgKey =
      st.saved.map imgKey ++ expectedPairs f := by
  cases hp : f.parse with
  | error e => simp [processFile, hp, expectedPairs, channelsOf]
  | ok chs => simp [processFile, hp, expectedPairs, channelsOf, procCh_renderOk_saved]

lemma procFile_renderOk_printed (f : GwyFile) (st : RunTrace) :
    (processFile renderOk f st).printed = st.printed ++ (expectedDiag f).toList := by
  cases hp : f.parse with
  | error e => simp [processFile, hp, expectedDiag]
  | ok chs => simp [processFile, hp, expectedDiag, procCh_printed]

lemma runFiles_renderOk_saved (fs : List GwyFile) :
    ∀ st, st.uncaught = none →
      ((runFiles renderOk fs st).saved).map imgKey =
        st.saved.map imgKey ++ fs.flatMap expectedPairs := by
  induction fs with
  | nil => intro st h; simp [runFiles]
  | cons f fs ih =>
    intro st h
    have hu : (processFile renderOk f st).uncaught = none := by
      rw [procFile_renderOk_uncaught, h]
    simp only [runFiles, hu]
    rw [ih _ hu, procFile_renderOk_saved]
    simp [List.append_assoc]

lemma runFiles_renderOk_printed (fs : List GwyFile) :
    ∀ st, st.uncaught = none →
      (runFiles renderOk fs st).printed =
        st.printed ++ fs.flatMap (fun f => (expectedDiag f).toList) := by
  induction fs with
  | nil => intro st h; simp [runFiles]
  | cons f fs ih =>
    intro st h
    have hu : (processFile renderOk f st).uncaught = none := by
      rw [procFile_renderOk_uncaught, h]
    simp only [runFiles, hu]
    rw [ih _ hu, procFile_renderOk_printed]
    simp [List.append_assoc]

lemma run_renderOk_saved (dir : List GwyFile) :
    ((process_gwy_files dir renderOk).saved).map imgKey =
      (dir.filter (fun f => endswith f.name ".gwy")).flatMap expectedPairs := by
  simp only [process_gwy_files]
  cases he : (dir.filter (fun f => endswith f.name ".gwy")).isEmpty with
  | true =>
    rw [List.isEmpty_iff] at he
    simp [he, initTrace]
  | false =>
    rw [if_neg (by simp [he])]
    rw [runFiles_renderOk_saved _ _ rfl]
    simp [initTrace]

lemma run_renderOk_printed (dir : List GwyFile) :
    (process_gwy_files dir renderOk).printed =
      (if (dir.filter (fun f => endswith f.name ".gwy")).isEmpty then
        ["No .gwy files found in the folder."]
      else (dir.filter (fun f => endswith f.name ".gwy")).flatMap
        (fun f => (expectedDiag f).toList)) := by
  simp only [process_gwy_files]
  cases he : (dir.filter (fun f => endswith f.name ".gwy")).isEmpty with
  | true => simp [initTrace]
  | false =>
    rw [if_neg (by simp), if_neg (by simp)]
    rw [runFiles_renderOk_printed _ _ rfl]
    simp [initTrace]

lemma procFile_createdDirs (render : SavedImage → Option String) (f : GwyFile)
    (st : RunTrace) : (processFile render f st).createdDirs = st.createdDirs := by
  cases hp : f.parse with
  | error e => simp [processFile, hp]
  | ok chs => simp [processFile, hp, procCh_createdDirs]

lemma runFiles_createdDirs (render : SavedImage → Option String) (fs : List GwyFile) :
    ∀ st, (runFiles render fs st).createdDirs = st.createdDirs := by
  induction fs with
  | nil => intro st; rfl
  | cons f fs ih =>
    intro st
    cases hu : (processFile render f st).uncaught with
    | some e => simp only [runFiles, hu]; exact procFile_createdDirs render f st
    | none => simp only [runFiles, hu]; rw [ih, procFile_createdDirs]

lemma run_renderOk_createdDirs (dir : List GwyFile) :
    (process_gwy_files dir renderOk).createdDirs =
      (if (dir.filter (fun f => endswith f.name ".gwy")).isEmpty then []
       else [output_folder]) := by
  simp only [process_gwy_files]
  cases he : (dir.filter (fun f => endswith f.name ".gwy")).isEmpty with
  | true => simp [initTrace]
  | false =>
    rw [if_neg (by simp), if_neg (by simp)]
    rw [runFiles_createdDirs]

/-- C4: under a render oracle that always succeeds, the images saved by a
run are exactly one per (discovered file, recognized channel) pair, in
order; a channel key absent from `params` is skipped with no output, no
diagnostic and no state change of any kind; the only printed lines are
parse diagnostics. -/
theorem spec_C4 (dir : List GwyFile) :
    ((process_gwy_files dir renderOk).saved).map imgKey =
      (dir.filter (fun f => endswith f.name ".gwy")).flatMap expectedPairs ∧
    (process_gwy_files dir renderOk).printed =
      (if (dir.filter (fun f => endswith f.name ".gwy")).isEmpty then
        ["No .gwy files found in the folder."]
      else (dir.filter (fun f => endswith f.name ".gwy")).flatMap
        (fun f => (expectedDiag f).toList)) ∧
    (∀ (render : SavedImage → Option String) (fname k : String) (ch : Channel)
        (rest : List (String × Channel)) (st : RunTrace),
      params k = none →
      processChannelsAux render fname ((k, ch) :: rest) st =
        processChannelsAux render fname rest st) := by
  refine ⟨run_renderOk_saved dir, run_renderOk_printed dir, ?_⟩
  intro render fname k ch rest st hk
  simp only [processChannelsAux, hk]

/-- Witness for `spec_C4`: the unrecognized "Phase" channel is a no-op. -/
theorem spec_C4_witness :
    processChannelsAux renderOk "mixed.gwy" [("Phase", exChannel)] initTrace =
      processChannelsAux renderOk "mixed.gwy" [] initTrace :=
  (spec_C4 exDir).2.2 renderOk "mixed.gwy" "Phase" exChannel [] initTrace (by decide)

/-- C9: every image saved by a run carries a colorbar whose min and max
texts are the minimum and maximum of the displayed (post-scaling) array
formatted with ".3g" (three significant figures), and a scale bar of
length fraction 3/10 of the view width, anchored in the lower-left corner
with no frame. -/
theorem spec_C9 (dir : List GwyFile) (img : SavedImage)
    (h : img ∈ (process_gwy_files dir renderOk).saved) :
    img.figure.cbar.minText = ⟨npMin img.figure.imageData, ".3g"⟩ ∧
    img.figure.cbar.maxText = ⟨npMax img.figure.imageData, ".3g"⟩ ∧
    img.figure.scalebar = add_scalebar ∧
    img.figure.scalebar.length_fraction = 3/10 ∧
    img.figure.scalebar.location = "lower left" ∧
    img.figure.scalebar.frameon = false := by
  have hmem : imgKey img ∈ ((process_gwy_files dir renderOk).saved).map imgKey :=
    List.mem_map_of_mem imgKey h
  rw [run_renderOk_saved] at hmem
  rw [List.mem_flatMap] at hmem
  obtain ⟨f, hf, hpair⟩ := hmem
  rw [expectedPairs, List.mem_filterMap] at hpair
  obtain ⟨kc, hkc, hsome⟩ := hpair
  rw [Option.map_eq_some'] at hsome
  obtain ⟨p, hp, hkey⟩ := hsome
  have hfig : img.figure = mkFigure p kc.1 kc.2 := by
    have h2 := congrArg Prod.snd hkey
    simpa [imgKey] using h2.symm
  rw [hfig]
  exact ⟨rfl, rfl, rfl, rfl, rfl, rfl⟩

/-- The first image of the witness run: the height channel of the good
file. -/
def exImg : SavedImage :=
  mkImg 0 "good.gwy" "ZSensor" exChannel ⟨"afmhot", 1000000000, "Height [nm]"⟩

/-- Witness for `spec_C9` at a concrete saved image. -/
theorem spec_C9_witness :
    exImg.figure.scalebar = add_scalebar ∧ exImg.figure.scalebar.frameon = false := by
  have hsaved : (process_gwy_files exDir renderOk).saved =
      [exImg, mkImg 1 "mixed.gwy" "Potential" exChannel ⟨"inferno", 1, "Potential [V]"⟩] := by
    rfl
  have hmem : exImg ∈ (process_gwy_files exDir renderOk).saved := by
    rw [hsaved]
    exact List.mem_cons_self _ _
  exact ⟨(spec_C9 exDir exImg hmem).2.2.1, (spec_C9 exDir exImg hmem).2.2.2.2.2⟩

lemma runFiles_stops (render : SavedImage → Option String) (fs1 : List GwyFile)
    (f : GwyFile) (fs2 : List GwyFile) :
    ∀ st e, (runFiles render fs1 st).uncaught = none →
      (processFile render f (runFiles render fs1 st)).uncaught = some e →
      runFiles render (fs1 ++ f :: fs2) st =
        processFile render f (runFiles render fs1 st) := by
  induction fs1 with
  | nil =>
    intro st e h1 h2
    simp only [runFiles] at h2
    simp only [List.nil_append, runFiles, h2]
  | cons g gs ih =>
    intro st e h1 h2
    cases hgu : (processFile render g st).uncaught with
    | some e2 =>
      exfalso
      simp only [runFiles, hgu] at h1
      exact Option.noConfusion h1
    | none =>
      simp only [runFiles, hgu] at h1 h2
      simp only [List.cons_append, runFiles, hgu]
      exact ih _ e h1 h2

/-- C7: an exception raised while a channel is rendered or saved is not
caught: it becomes the run exception at the failing channel and the whole
remaining batch (rest of that file and all later files) is skipped; by
contrast a parse failure never sets the run exception — only the load and
extraction step sits inside the recoverable-error boundary. -/
theorem spec_C7 :
    (∀ (render : SavedImage → Option String) (fs1 : List GwyFile) (f : GwyFile)
        (fs2 : List GwyFile) (st : RunTrace) (e : String),
      (runFiles render fs1 st).uncaught = none →
      (processFile render f (runFiles render fs1 st)).uncaught = some e →
      runFiles render (fs1 ++ f :: fs2) st =
        processFile render f (runFiles render fs1 st)) ∧
    (∀ (render : SavedImage → Option String) (fname key : String) (ch : Channel)
        (rest : List (String × Channel)) (st : RunTrace) (p : ChannelParams)
        (e : String),
      params key = some p →
      render (mkImg st.nextFig fname key ch p) = some e →
      processChannelsAux render fname ((key, ch) :: rest) st =
        { st with openFigs := st.openFigs ++ [st.nextFig],
                  nextFig := st.nextFig + 1, uncaught := some e }) ∧
    (∀ (render : SavedImage → Option String) (f : GwyFile) (st : RunTrace)
        (e : String),
      f.parse = Except.error e → (processFile render f st).uncaught = st.uncaught) := by
  refine ⟨?_, ?_, ?_⟩
  · intro render fs1 f fs2 st e h1 h2
    exact runFiles_stops render fs1 f fs2 st e h1 h2
  · intro render fname key ch rest st p e hp hr
    simp only [processChannelsAux, hp, hr]
  · intro render f st e hp
    simp [processFile, hp]

/-- Witness for `spec_C7`: a "disk full" exception at the first save ends
the batch before the second file is touched. -/
theorem spec_C7_witness :
    runFiles renderDiskFull [goodFile, mixedFile] initTrace =
      processFile renderDiskFull goodFile initTrace :=
  spec_C7.1 renderDiskFull [] goodFile [mixedFile] initTrace "disk full"
    rfl (by rfl)

/-- Figure-lifecycle invariant: the open figures are exactly every figure
number ever allocated, and the saved images carry strictly increasing
figure numbers, all below the allocation counter. -/
def FigInv (st : RunTrace) : Prop :=
  st.openFigs = List.range st.nextFig ∧
  (st.saved.map (fun img => img.figId)).Pairwise (· < ·) ∧
  ∀ i ∈ st.saved.map (fun img => img.figId), i < st.nextFig

lemma procCh_figInv (render : SavedImage → Option String) (fname : String)
    (chs : List (String × Channel)) :
    ∀ st, FigInv st → FigInv (processChannelsAux render fname chs st) := by
  induction chs with
  | nil => intro st h; exact h
  | cons kc rest ih =>
    intro st h
    obtain ⟨key, ch⟩ := kc
    obtain ⟨ho, hpw, hb⟩ := h
    cases hpk : params key with
    | none => simp only [processChannelsAux, hpk]; exact ih st ⟨ho, hpw, hb⟩
    | some p =>
      simp only [processChannelsAux, hpk]
      cases hr : render (mkImg st.nextFig fname key ch p) with
      | some e =>
        simp only [hr]
        refine ⟨?_, hpw, ?_⟩
        · show st.openFigs ++ [st.nextFig] = List.range (st.nextFig + 1)
          rw [ho, List.range_succ]
        · intro i hi
          exact Nat.lt_trans (hb i hi) (Nat.lt_succ_self _)
      | none =>
        simp only [hr]
        apply ih
        refine ⟨?_, ?_, ?_⟩
        · show st.openFigs ++ [st.nextFig] = List.range (st.nextFig + 1)
          rw [ho, List.range_succ]
        · show ((st.saved ++ [mkImg st.nextFig fname key ch p]).map
            (fun img => img.figId)).Pairwise (· < ·)
          rw [List.map_append, List.pairwise_append]
          refine ⟨hpw, List.pairwise_singleton _ _, ?_⟩
          intro a ha b hb2
          simp only [List.map_cons, List.map_nil, List.mem_singleton] at hb2
          subst hb2
          exact hb a ha
        · show ∀ i ∈ (st.saved ++ [mkImg st.nextFig fname key ch p]).map
            (fun img => img.figId), i < st.nextFig + 1
          intro i hi
          rw [List.map_append, List.mem_append] at hi
          rcases hi with hi | hi
          · exact Nat.lt_trans (hb i hi) (Nat.lt_succ_self _)
          · simp only [List.map_cons, List.map_nil, List.mem_singleton] at hi
            subst hi
            exact Nat.lt_succ_self _

lemma procFile_figInv (render : SavedImage → Option String) (f : GwyFile)
    (st : RunTrace) (h : FigInv st) : FigInv (processFile render f st) := by
  cases hp : f.parse with
  | error e =>
    obtain ⟨ho, hpw, hb⟩ := h
    simp only [processFile, hp]
    exact ⟨ho, hpw, hb⟩
  | ok chs =>
    simp only [processFile, hp]
    exact procCh_figInv render f.name chs st h

lemma runFiles_figInv (render : SavedImage → Option String) (fs : List GwyFile) :
    ∀ st, FigInv st → FigInv (runFiles render fs st) := by
  induction fs with
  | nil => intro st h; exact h
  | cons f fs ih =>
    intro st h
    cases hu : (processFile render f st).uncaught with
    | some e => simp only [runFiles, hu]; exact procFile_figInv render f st h
    | none => simp only [runFiles, hu]; exact ih _ (procFile_figInv render f st h)

/-- C8 (amended): each recognized channel is rendered on a fresh figure —
the saved figure numbers are pairwise distinct, so no figure is reused
across channels — but figures are never closed: when any run ends, the
open figure set is exactly every figure ever created, saved or not. -/
theorem spec_C8 (dir : List GwyFile) (render : SavedImage → Option String) :
    ((process_gwy_files dir render).saved.map (fun img => img.figId)).Nodup ∧
    (process_gwy_files dir render).openFigs =
      List.range (process_gwy_files dir render).nextFig := by
  have hinit : FigInv initTrace := by
    refine ⟨rfl, List.Pairwise.nil, ?_⟩
    intro i hi
    exact absurd hi (List.not_mem_nil i)
  have hinv : FigInv (process_gwy_files dir render) := by
    simp only [process_gwy_files]
    cases he : (dir.filter (fun f => endswith f.name ".gwy")).isEmpty with
    | true =>
      refine ⟨rfl, List.Pairwise.nil, ?_⟩
      intro i hi
      exact absurd hi (List.not_mem_nil i)
    | false =>
      rw [if_neg (by simp)]
      apply runFiles_figInv
      refine ⟨rfl, List.Pairwise.nil, ?_⟩
      intro i hi
      exact absurd hi (List.not_mem_nil i)
  obtain ⟨ho, hpw, hb⟩ := hinv
  exact ⟨hpw.imp (fun hab => Nat.ne_of_lt hab), ho⟩

/-- C8 counterexample: in a one-file run the single saved image was drawn
on figure 0, and figure 0 is still open when the run ends — the script
never calls a close, so the figure of a saved image is not released. -/
theorem spec_C8_counterexample :
    ((process_gwy_files [goodFile] renderOk).saved.map (fun img => img.figId)) = [0] ∧
    (process_gwy_files [goodFile] renderOk).openFigs = [0] := by
  constructor <;> rfl
